import Mathlib

/-
Verification of the FMB IC Plus picoammeter driver (src/fmb/fmb_ic_plus.py).

Shallow embedding conventions:
  - Python floats are modelled by the inductive type PyFloat: NaN, the two
    infinities, and finite values carried as exact rationals.  All float
    operations appearing in the source (comparisons inside min/max, sums,
    divisions, multiplications by decimal literals) are modelled exactly over
    the rationals; Python's min/max keep their first-argument-biased,
    comparison-driven semantics so that NaN propagates as in CPython.
  - Byte strings are lists of naturals (byte values).
  - Wire commands are a structured datatype (one constructor per command
    format string of the source); an operation of FMBICPlusHost is modelled
    by the BusAction it performs: sending a command, returning the -1
    sentinel without touching the wire, or silently doing nothing.
  - The measurement loop of FMBICPlusChannel.__measure is driven by a list
    of per-iteration events (stop flag observed, measure result, serial
    failure); the wall-clock guard is modelled by the finite length of the
    event list.
  - The locking discipline of FMBICPlusHost.query is modelled by the event
    trace each exit path of query produces, together with an exhaustive
    interleaving semantics of two such traces under a mutual-exclusion lock.
-/

/-- PyFloat models a CPython float: NaN, the infinities, or a finite value
(carried as an exact rational). -/
inductive PyFloat
  | nan
  | pinf
  | ninf
  | fin (q : ℚ)
  deriving DecidableEq

/-- plt models the Python `<` comparison on floats: every comparison
involving NaN is False; otherwise the usual order with -inf least and
+inf greatest. -/
def plt : PyFloat → PyFloat → Bool
  | PyFloat.nan, _ => false
  | _, PyFloat.nan => false
  | PyFloat.ninf, PyFloat.ninf => false
  | PyFloat.ninf, _ => true
  | _, PyFloat.ninf => false
  | PyFloat.pinf, _ => false
  | _, PyFloat.pinf => true
  | PyFloat.fin a, PyFloat.fin b => decide (a < b)

/-- pymin models Python `min(a, b)`: start from the first argument, replace
it by the second only if the second compares strictly smaller. -/
def pymin (a b : PyFloat) : PyFloat := if plt b a then b else a

/-- pymax models Python `max(a, b)`: start from the first argument, replace
it by the second only if the second compares strictly greater. -/
def pymax (a b : PyFloat) : PyFloat := if plt a b then b else a

namespace RangeEnum

/-- RangeEnum models the six-member IntEnum of measuring ranges
(RANGE_1 = 0 .. RANGE_6 = 5). -/
abbrev Range := Fin 6

/-- min models RangeEnum.min: `1e2 * pow(10, self)`, the lower range limit
in fA. -/
def min (r : Range) : ℚ := 100 * 10 ^ (r : ℕ)

/-- max models RangeEnum.max: `1e6 * pow(10, self)`, the upper range limit
in fA. -/
def max (r : Range) : ℚ := 1000000 * 10 ^ (r : ℕ)

/-- to_amperes models RangeEnum.to_amperes:
`self.max() / 262144000 * int_representation * 1e-15`. -/
def to_amperes (r : Range) (int_representation : ℤ) : ℚ :=
  max r / 262144000 * (int_representation : ℚ) * (1 / 10 ^ 15)

end RangeEnum

namespace FMBICPlusChannel

/-- MIN_VOLTAGE of FMBICPlusChannel. -/
def MIN_VOLTAGE : ℤ := 0

/-- MAX_VOLTAGE of FMBICPlusChannel. -/
def MAX_VOLTAGE : ℤ := 1700

/-- MIN_OFFSET of FMBICPlusChannel. -/
def MIN_OFFSET : ℤ := 0

/-- MAX_OFFSET of FMBICPlusChannel. -/
def MAX_OFFSET : ℤ := 99

/-- MIN_EXPOSITION_TIME of FMBICPlusChannel: 1e-6 seconds. -/
def MIN_EXPOSITION_TIME : ℚ := 1 / 1000000

/-- MAX_EXPOSITION_TIME of FMBICPlusChannel: float(24*60*60) = 86400. -/
def MAX_EXPOSITION_TIME : ℚ := 86400

/-- fit_voltage_range models FMBICPlusChannel.fit_voltage_range:
`min(hv, MAX_VOLTAGE)` then `max(hv, MIN_VOLTAGE)` on integers. -/
def fit_voltage_range (high_voltage : ℤ) : ℤ :=
  Max.max (Min.min high_voltage MAX_VOLTAGE) MIN_VOLTAGE

/-- fit_offset_range models FMBICPlusChannel.fit_offset_range:
`min(offset, MAX_OFFSET)` then `max(offset, MIN_OFFSET)` on integers. -/
def fit_offset_range (offset : ℤ) : ℤ :=
  Max.max (Min.min offset MAX_OFFSET) MIN_OFFSET

/-- fit_exp_time_range models FMBICPlusChannel.fit_exp_time_range:
`min(t, MAX_EXPOSITION_TIME)` then `max(t, MIN_EXPOSITION_TIME)` with
Python float min/max semantics (first-argument biased, NaN-propagating). -/
def fit_exp_time_range (exposition_time : PyFloat) : PyFloat :=
  pymax (pymin exposition_time (PyFloat.fin MAX_EXPOSITION_TIME))
        (PyFloat.fin MIN_EXPOSITION_TIME)

end FMBICPlusChannel

/-- Command is the structured form of the ASCII command strings the host
formats and writes to the serial port; one constructor per format string
in the source. -/
inductive Command
  | confVoltQ (addr : ℤ)
  | confVoltW (addr volts : ℤ)
  | confRangQ (addr : ℤ)
  | confRangW (addr rang : ℤ)
  | confOffsQ (addr : ℤ)
  | confOffsW (addr offs : ℤ)
  | rst (addr : ℤ)
  | readCurr (addr : ℤ)
  deriving DecidableEq

/-- BusAction describes what a host operation does before/instead of the
wire exchange: send a command through query (recording whether data is
expected and the extra execution time granted to the read timeout), return
the -1 sentinel without touching the wire, or return silently with no
command and no sentinel. -/
inductive BusAction
  | send (c : Command) (data_expected : Bool) (execution_time : ℚ)
  | sentinel (v : ℤ)
  | nothing
  deriving DecidableEq

namespace FMBICPlusHost

/-- MAX_CHANNELS of FMBICPlusHost. -/
def MAX_CHANNELS : ℤ := 15

/-- read_voltage models FMBICPlusHost.read_voltage: query
":CONF{id}:VOLT?" with data expected if `0 <= channel_id <= MAX_CHANNELS`,
else return -1. -/
def read_voltage (channel_id : ℤ) : BusAction :=
  if 0 ≤ channel_id ∧ channel_id ≤ MAX_CHANNELS then
    BusAction.send (Command.confVoltQ channel_id) true 0
  else
    BusAction.sentinel (-1)

/-- write_voltage models FMBICPlusHost.write_voltage: query
":CONF{id}:VOLT {v}" only when the data list has exactly two elements,
the address is within [0, MAX_CHANNELS] and the voltage within
[MIN_VOLTAGE, MAX_VOLTAGE]; otherwise return silently. -/
def write_voltage (data : List ℤ) : BusAction :=
  if data.length = 2 ∧ 0 ≤ data.getD 0 0 ∧ data.getD 0 0 ≤ MAX_CHANNELS ∧
     FMBICPlusChannel.MIN_VOLTAGE ≤ data.getD 1 0 ∧
     data.getD 1 0 ≤ FMBICPlusChannel.MAX_VOLTAGE then
    BusAction.send (Command.confVoltW (data.getD 0 0) (data.getD 1 0)) false 0
  else
    BusAction.nothing

/-- read_range models FMBICPlusHost.read_range: query
":CONF{id}:CURR:RANG?" with data expected if the address is valid,
else return -1. -/
def read_range (channel_id : ℤ) : BusAction :=
  if 0 ≤ channel_id ∧ channel_id ≤ MAX_CHANNELS then
    BusAction.send (Command.confRangQ channel_id) true 0
  else
    BusAction.sentinel (-1)

/-- write_range models FMBICPlusHost.write_range: it indexes data[0] and
data[1] with no validation whatsoever and always sends
":CONF{id}:CURR:RANG {n}"; a list shorter than two elements raises
IndexError (modelled as none). -/
def write_range (data : List ℤ) : Option BusAction :=
  match data with
  | a :: b :: _ => some (BusAction.send (Command.confRangW a b) false 0)
  | _ => none

/-- read_offset models FMBICPlusHost.read_offset: query
":CONF{id}:CURR:OFFS?" with data expected if the address is valid,
else return -1. -/
def read_offset (channel_id : ℤ) : BusAction :=
  if 0 ≤ channel_id ∧ channel_id ≤ MAX_CHANNELS then
    BusAction.send (Command.confOffsQ channel_id) true 0
  else
    BusAction.sentinel (-1)

/-- write_offset models FMBICPlusHost.write_offset: query
":CONF{id}:CURR:OFFS {n}" only when the data list has exactly two
elements, the address is within [0, MAX_CHANNELS] and the offset satisfies
`MIN_OFFSET <= offset < MAX_OFFSET` (strict upper bound, as in the
source); otherwise return silently. -/
def write_offset (data : List ℤ) : BusAction :=
  if data.length = 2 ∧ 0 ≤ data.getD 0 0 ∧ data.getD 0 0 ≤ MAX_CHANNELS ∧
     FMBICPlusChannel.MIN_OFFSET ≤ data.getD 1 0 ∧
     data.getD 1 0 < FMBICPlusChannel.MAX_OFFSET then
    BusAction.send (Command.confOffsW (data.getD 0 0) (data.getD 1 0)) false 0
  else
    BusAction.nothing

/-- reset models FMBICPlusHost.reset: it sends "*RST{id}" unconditionally,
with no address validation. -/
def reset (channel_id : ℤ) : BusAction :=
  BusAction.send (Command.rst channel_id) false 0

/-- measure models FMBICPlusHost.measure: when the data list has exactly
two elements and the address is valid, query ":READ{id}:CURR?" with data
expected and execution time `data[1] * MIN_EXPOSITION_TIME`; otherwise
return -1. -/
def measure (data : List ℤ) : BusAction :=
  if data.length = 2 ∧ 0 ≤ data.getD 0 0 ∧ data.getD 0 0 ≤ MAX_CHANNELS then
    BusAction.send (Command.readCurr (data.getD 0 0)) true
      ((data.getD 1 0 : ℚ) * FMBICPlusChannel.MIN_EXPOSITION_TIME)
  else
    BusAction.sentinel (-1)

/-- isAsciiDigit tests for an ASCII decimal digit byte. -/
def isAsciiDigit (b : Nat) : Bool := 48 ≤ b && b ≤ 57

/-- isAsciiSpace tests for the ASCII whitespace bytes Python's int()
strips from its argument. -/
def isAsciiSpace (b : Nat) : Bool :=
  b == 32 || b == 9 || b == 10 || b == 13 || b == 11 || b == 12

/-- digitsVal folds a list of ASCII digit bytes into the integer they
denote in base 10. -/
def digitsVal (bs : List Nat) : ℤ :=
  bs.foldl (fun acc b => acc * 10 + ((b : ℤ) - 48)) 0

/-- stripSpaces removes leading and trailing ASCII whitespace bytes. -/
def stripSpaces (bs : List Nat) : List Nat :=
  ((bs.dropWhile isAsciiSpace).reverse.dropWhile isAsciiSpace).reverse

/-- pyInt models the Python builtin int() applied to a byte string as the
source does in query: surrounding whitespace is stripped, an optional
single sign is allowed, and the remainder must be a nonempty run of
decimal digits; anything else raises ValueError (modelled as none). -/
def pyInt (bs : List Nat) : Option ℤ :=
  match stripSpaces bs with
  | [] => none
  | 43 :: rest =>
      if rest ≠ [] ∧ rest.all isAsciiDigit then some (digitsVal rest) else none
  | 45 :: rest =>
      if rest ≠ [] ∧ rest.all isAsciiDigit then some (-(digitsVal rest)) else none
  | l => if l.all isAsciiDigit then some (digitsVal l) else none

/-- query models the validation and return logic of FMBICPlusHost.query on
the response bytes: the answer is rejected with the -1 sentinel when
(length < 3 and data expected) or (answer differs from the single 0x06
byte and no data expected) or the answer is empty; otherwise the bytes
between the first and last one are parsed as an integer when data is
expected (a parse failure raises, modelled as none), and 0 is returned
when no data is expected. -/
def query (answer : List Nat) (data_expected : Bool) : Option ℤ :=
  if ((answer.length < 3 ∧ data_expected = true) ∨
      (answer ≠ [6] ∧ data_expected = false)) ∨ answer = [] then
    some (-1)
  else if data_expected = true then
    pyInt ((answer.drop 1).dropLast)
  else
    some 0

end FMBICPlusHost

/-- DevState models the Tango device states the driver uses. -/
inductive DevState
  | ON
  | RUNNING
  | FAULT
  deriving DecidableEq

/-- ChannelState carries the mutable fields of FMBICPlusChannel touched by
the measurement loop: _current, _raw_current, _stop and the device state.
_raw_current is rational because the source assigns it the result of a
Python true division. -/
structure ChannelState where
  current : PyFloat
  raw_current : ℚ
  stop : Bool
  state : DevState
  deriving DecidableEq

/-- chInit is the channel state right after init_device: _current = 0.0,
_raw_current = 0, _stop = False, state ON. -/
def chInit : ChannelState :=
  { current := PyFloat.fin 0, raw_current := 0, stop := false,
    state := DevState.ON }

/-- MeasEvent is one iteration of the __measure while-loop, as observed by
the loop body: the stop flag was read true, or host.measure returned the
value v (v = -1 being the sentinel), or the bus call raised
serial.SerialException. -/
inductive MeasEvent
  | stop
  | res (v : ℤ)
  | fail
  deriving DecidableEq

/-- notStop is true on every event except the stop-flag observation. -/
def notStop : MeasEvent → Bool
  | MeasEvent.stop => false
  | _ => true

/-- goodVals lists the non-sentinel measure results the loop actually
accumulates: events after the first stop observation are never executed,
and -1 results are skipped. -/
def goodVals (evs : List MeasEvent) : List ℤ :=
  (evs.takeWhile notStop).filterMap fun e =>
    match e with
    | MeasEvent.res v => if v = -1 then none else some v
    | _ => none

/-- finalize models the code after the while-loop of __measure: with a
positive cycle count the averages result/cycles and result_raw/cycles are
stored, otherwise NaN and -1; in both cases _stop is cleared and the state
becomes ON. -/
def finalize (result result_raw : ℚ) (cycles : ℕ) (ch : ChannelState) :
    ChannelState :=
  if 0 < cycles then
    { ch with current := PyFloat.fin (result / cycles),
              raw_current := result_raw / cycles,
              stop := false, state := DevState.ON }
  else
    { ch with current := PyFloat.nan, raw_current := -1,
              stop := false, state := DevState.ON }

/-- runLoop models the while-loop of FMBICPlusChannel.__measure over the
iteration events: a stop observation breaks to the post-loop code, a -1
result continues without accumulating, a proper result is converted via
to_amperes and accumulated, and a serial failure sets FAULT and re-raises,
skipping the post-loop code entirely. -/
def runLoop (r : RangeEnum.Range) :
    List MeasEvent → ℚ → ℚ → ℕ → ChannelState → ChannelState
  | [], result, result_raw, cycles, ch => finalize result result_raw cycles ch
  | MeasEvent.stop :: _, result, result_raw, cycles, ch =>
      finalize result result_raw cycles ch
  | MeasEvent.res v :: rest, result, result_raw, cycles, ch =>
      if v = -1 then
        runLoop r rest result result_raw cycles ch
      else
        runLoop r rest (result + RangeEnum.to_amperes r v)
          (result_raw + (v : ℚ)) (cycles + 1) ch
  | MeasEvent.fail :: _, _, _, _, ch => { ch with state := DevState.FAULT }

/-- measureRun models FMBICPlusChannel.__measure: the state is set to
RUNNING, the accumulators start at zero, and the loop runs over the given
iteration events. -/
def measureRun (r : RangeEnum.Range) (evs : List MeasEvent)
    (ch : ChannelState) : ChannelState :=
  runLoop r evs 0 0 0 { ch with state := DevState.RUNNING }

/-- HVWriteResult is the observable outcome of the high_voltage setter in
the ON state: the value stored into _high_voltage and the bus action the
host performs. -/
structure HVWriteResult where
  high_voltage_field : ℤ
  bus : BusAction
  deriving DecidableEq

/-- high_voltage_write models the ON-state branch of the high_voltage
setter: `_high_voltage = fit_voltage_range(high_voltage)` and
`write_voltage([address, high_voltage])` — note the raw, unclamped value
is the one handed to the host. -/
def high_voltage_write (addr requested : ℤ) : HVWriteResult :=
  { high_voltage_field := FMBICPlusChannel.fit_voltage_range requested,
    bus := FMBICPlusHost.write_voltage [addr, requested] }

/-- BusEvent is one observable step of FMBICPlusHost.query on the shared
link: taking or releasing the lock, writing the command bytes, or reading
the response. -/
inductive BusEvent
  | acquire
  | write
  | read
  | release
  deriving DecidableEq

/-- QueryOutcome enumerates the exit paths of FMBICPlusHost.query: a valid
response, the -1 sentinel return, a ValueError from int() on a malformed
data response, a SerialException raised by the port write, and one raised
by the port read. -/
inductive QueryOutcome
  | ok
  | sentinelResp
  | parseError
  | writeFail
  | readFail
  deriving DecidableEq

/-- queryTrace is the sequence of bus events query performs on each exit
path: the lock is acquired first, the write and (unless the write itself
raised) the read happen under the lock, and the finally block releases the
lock last on every path. -/
def queryTrace : QueryOutcome → List BusEvent
  | QueryOutcome.writeFail => [BusEvent.acquire, BusEvent.write, BusEvent.release]
  | _ => [BusEvent.acquire, BusEvent.write, BusEvent.read, BusEvent.release]

/-- mergesAux enumerates every interleaving of the events of two threads,
tagging each event with the thread (false or true) it belongs to; the fuel
argument only makes the recursion structural and is always sufficient. -/
def mergesAux : Nat → List BusEvent → List BusEvent → List (List (Bool × BusEvent))
  | 0, _, _ => []
  | _ + 1, [], ys => [ys.map fun y => (true, y)]
  | _ + 1, x :: xs, [] => [(x :: xs).map fun e => (false, e)]
  | n + 1, x :: xs, y :: ys =>
      ((mergesAux n xs (y :: ys)).map fun s => (false, x) :: s) ++
      ((mergesAux n (x :: xs) ys).map fun s => (true, y) :: s)

/-- merges enumerates every interleaving of the events of two threads. -/
def merges (xs ys : List BusEvent) : List (List (Bool × BusEvent)) :=
  mergesAux (xs.length + ys.length + 1) xs ys

/-- lockOk simulates the mutual-exclusion lock over a tagged interleaving:
an acquire step is possible only when the lock is free, a release step
only by the owner; schedules violating this are not executable. -/
def lockOk : Option Bool → List (Bool × BusEvent) → Bool
  | _, [] => true
  | owner, (t, e) :: rest =>
      match e with
      | BusEvent.acquire =>
          match owner with
          | none => lockOk (some t) rest
          | some _ => false
      | BusEvent.release =>
          match owner with
          | some t2 => t2 == t && lockOk none rest
          | none => false
      | _ => lockOk owner rest

/-- busTags projects an interleaving onto the thread tags of its wire
events (writes and reads). -/
def busTags (s : List (Bool × BusEvent)) : List Bool :=
  (s.filter fun p => p.2 == BusEvent.write || p.2 == BusEvent.read).map
    Prod.fst

/-- dedupAdj collapses adjacent duplicates in a list of tags. -/
def dedupAdj : List Bool → List Bool
  | [] => []
  | [a] => [a]
  | a :: b :: rest =>
      if a == b then dedupAdj (b :: rest) else a :: dedupAdj (b :: rest)

/-- busContiguous holds when the wire events of the two threads do not
interleave: one thread's writes and reads form a contiguous block relative
to the other's. -/
def busContiguous (s : List (Bool × BusEvent)) : Bool :=
  (dedupAdj (busTags s)).length ≤ 2

/-- pymin on two finite floats agrees with the rational minimum. -/
theorem pymin_fin (a b : ℚ) :
    pymin (PyFloat.fin a) (PyFloat.fin b) = PyFloat.fin (Min.min a b) := by
  simp only [pymin, plt]
  split_ifs with h
  · simp only [decide_eq_true_eq] at h
    rw [min_eq_right h.le]
  · simp only [decide_eq_true_eq, not_lt] at h
    rw [min_eq_left h]

/-- pymax on two finite floats agrees with the rational maximum. -/
theorem pymax_fin (a b : ℚ) :
    pymax (PyFloat.fin a) (PyFloat.fin b) = PyFloat.fin (Max.max a b) := by
  simp only [pymax, plt]
  split_ifs with h
  · simp only [decide_eq_true_eq] at h
    rw [max_eq_right h.le]
  · simp only [decide_eq_true_eq, not_lt] at h
    rw [max_eq_left h]

/-- fit_exp_time_range on a finite float clamps with rational min/max. -/
theorem fit_exp_time_range_fin (q : ℚ) :
    FMBICPlusChannel.fit_exp_time_range (PyFloat.fin q) =
      PyFloat.fin (Max.max (Min.min q 86400) (1 / 1000000)) := by
  rw [FMBICPlusChannel.fit_exp_time_range, FMBICPlusChannel.MAX_EXPOSITION_TIME,
      FMBICPlusChannel.MIN_EXPOSITION_TIME, pymin_fin, pymax_fin]

/-- C1: claimed fitExpositionTimeRange(-1) == -1 (non-positive inputs
returned unchanged), but the code clamps -1 up to the lower bound 1e-6. -/
theorem C1_counterexample :
    FMBICPlusChannel.fit_exp_time_range (PyFloat.fin (-1)) ≠ PyFloat.fin (-1) := by
  rw [fit_exp_time_range_fin, min_eq_left (by norm_num), max_eq_right (by norm_num)]
  simp only [ne_eq, PyFloat.fin.injEq]
  norm_num

/-- C1 (amended): fit_exp_time_range clamps every input that compares with
the bounds into [1e-6, 86400] — including non-positive and infinite
inputs, so fit(-1) = 1e-6, fit(-inf) = 1e-6, fit(+inf) = 86400 — and only
NaN is returned unchanged (it fails every comparison inside min/max);
fit(100000) = 86400 and fit(1e-9) = 1e-6 hold as claimed. -/
theorem C1_amended_clamp :
    FMBICPlusChannel.fit_exp_time_range PyFloat.nan = PyFloat.nan ∧
    FMBICPlusChannel.fit_exp_time_range PyFloat.pinf = PyFloat.fin 86400 ∧
    FMBICPlusChannel.fit_exp_time_range PyFloat.ninf = PyFloat.fin (1 / 1000000) ∧
    (∀ q : ℚ, FMBICPlusChannel.fit_exp_time_range (PyFloat.fin q) =
        PyFloat.fin (Max.max (Min.min q 86400) (1 / 1000000))) ∧
    FMBICPlusChannel.fit_exp_time_range (PyFloat.fin (-1)) = PyFloat.fin (1 / 1000000) ∧
    FMBICPlusChannel.fit_exp_time_range (PyFloat.fin 100000) = PyFloat.fin 86400 ∧
    FMBICPlusChannel.fit_exp_time_range (PyFloat.fin (1 / 10 ^ 9)) =
      PyFloat.fin (1 / 1000000) := by
  refine ⟨rfl, ?_, rfl, fit_exp_time_range_fin, ?_, ?_, ?_⟩
  · rw [FMBICPlusChannel.fit_exp_time_range,
        show pymin PyFloat.pinf (PyFloat.fin FMBICPlusChannel.MAX_EXPOSITION_TIME) =
          PyFloat.fin FMBICPlusChannel.MAX_EXPOSITION_TIME from rfl,
        FMBICPlusChannel.MAX_EXPOSITION_TIME, FMBICPlusChannel.MIN_EXPOSITION_TIME,
        pymax_fin, max_eq_left (by norm_num)]
  · rw [fit_exp_time_range_fin, min_eq_left (by norm_num), max_eq_right (by norm_num)]
  · rw [fit_exp_time_range_fin, min_eq_right (by norm_num), max_eq_left (by norm_num)]
  · rw [fit_exp_time_range_fin, min_eq_left (by norm_num), max_eq_right (by norm_num)]

/-- C8: to_amperes(r, raw) is max(r) / 262144000 * raw * 1e-15; in
particular to_amperes(0, 0) = 0, to_amperes(0, 262144000) = 1e-9, and
to_amperes(r, 262144000) = max(r) * 1e-15 for every range ordinal. -/
theorem C8_to_amperes_formula :
    RangeEnum.to_amperes 0 0 = 0 ∧
    RangeEnum.to_amperes 0 262144000 = 1 / 10 ^ 9 ∧
    (∀ r : RangeEnum.Range, RangeEnum.to_amperes r 262144000 =
        RangeEnum.max r * (1 / 10 ^ 15)) ∧
    (∀ (r : RangeEnum.Range) (raw : ℤ), RangeEnum.to_amperes r raw =
        RangeEnum.max r / 262144000 * (raw : ℚ) * (1 / 10 ^ 15)) := by
  refine ⟨?_, ?_, ?_, fun r raw => rfl⟩
  · norm_num [RangeEnum.to_amperes, RangeEnum.max]
  · norm_num [RangeEnum.to_amperes, RangeEnum.max]
  · intro r
    unfold RangeEnum.to_amperes
    push_cast
    rw [div_mul_cancel₀ _ (by norm_num : (262144000 : ℚ) ≠ 0)]

/-- C2: query returns the -1 sentinel for short responses when data is
expected, for any response other than the single 0x06 byte when no data is
expected, and for empty responses; otherwise it parses the response with
its first and last byte stripped when data is expected, and returns 0 when
no data is expected. -/
theorem C2_query_validation (answer : List Nat) :
    (answer.length < 3 → FMBICPlusHost.query answer true = some (-1)) ∧
    (answer ≠ [6] → FMBICPlusHost.query answer false = some (-1)) ∧
    (answer = [] → FMBICPlusHost.query answer true = some (-1) ∧
        FMBICPlusHost.query answer false = some (-1)) ∧
    (3 ≤ answer.length → FMBICPlusHost.query answer true =
        FMBICPlusHost.pyInt ((answer.drop 1).dropLast)) ∧
    (answer = [6] → FMBICPlusHost.query answer false = some 0) := by
  refine ⟨?_, ?_, ?_, ?_, ?_⟩
  · intro h
    unfold FMBICPlusHost.query
    rw [if_pos (Or.inl (Or.inl ⟨h, rfl⟩))]
  · intro h
    unfold FMBICPlusHost.query
    rw [if_pos (Or.inl (Or.inr ⟨h, rfl⟩))]
  · intro h
    subst h
    exact ⟨by decide, by decide⟩
  · intro h
    unfold FMBICPlusHost.query
    rw [if_neg, if_pos rfl]
    rintro ((⟨h1, -⟩ | ⟨-, h2⟩) | h3)
    · omega
    · exact absurd h2 (by decide)
    · subst h3
      simp at h
  · intro h
    subst h
    decide

/-- goodVals of the empty event list. -/
theorem goodVals_nil : goodVals [] = [] := rfl

/-- goodVals of a list starting with a stop observation is empty. -/
theorem goodVals_stop (rest : List MeasEvent) :
    goodVals (MeasEvent.stop :: rest) = [] := rfl

/-- goodVals of a list starting with a measure result keeps the value
unless it is the -1 sentinel. -/
theorem goodVals_res (v : ℤ) (rest : List MeasEvent) :
    goodVals (MeasEvent.res v :: rest) =
      if v = -1 then goodVals rest else v :: goodVals rest := by
  by_cases hv : v = -1 <;>
    simp [goodVals, List.takeWhile_cons, notStop, List.filterMap_cons, hv]

/-- runLoop without a failure event before the first stop observation
always reaches the post-loop code with the accumulated sums and count. -/
theorem runLoop_noFail (r : RangeEnum.Range) (evs : List MeasEvent) :
    ∀ (result result_raw : ℚ) (cycles : ℕ) (ch : ChannelState),
      MeasEvent.fail ∉ evs.takeWhile notStop →
      runLoop r evs result result_raw cycles ch =
        finalize (result + ((goodVals evs).map (RangeEnum.to_amperes r)).sum)
          (result_raw + ((goodVals evs).map (Int.cast : ℤ → ℚ)).sum)
          (cycles + (goodVals evs).length) ch := by
  induction evs with
  | nil =>
      intro result result_raw cycles ch _
      simp [runLoop, goodVals_nil]
  | cons e rest ih =>
      intro result result_raw cycles ch h
      cases e with
      | stop =>
          simp [runLoop, goodVals_stop]
      | fail =>
          exfalso
          apply h
          simp [List.takeWhile_cons, notStop]
      | res v =>
          have htw : (MeasEvent.res v :: rest).takeWhile notStop =
              MeasEvent.res v :: rest.takeWhile notStop := by
            simp [List.takeWhile_cons, notStop]
          rw [htw] at h
          have h' : MeasEvent.fail ∉ rest.takeWhile notStop := by
            intro hm
            exact h (List.mem_cons_of_mem _ hm)
          by_cases hv : v = -1
          · have hr : runLoop r (MeasEvent.res v :: rest) result result_raw cycles ch =
                runLoop r rest result result_raw cycles ch := by
              simp [runLoop, hv]
            rw [hr, ih result result_raw cycles ch h', goodVals_res, if_pos hv]
          · have hr : runLoop r (MeasEvent.res v :: rest) result result_raw cycles ch =
                runLoop r rest (result + RangeEnum.to_amperes r v)
                  (result_raw + (v : ℚ)) (cycles + 1) ch := by
              simp [runLoop, hv]
            rw [hr, ih _ _ _ ch h', goodVals_res, if_neg hv]
            simp only [List.map_cons, List.sum_cons, List.length_cons]
            congr 1
            · ring
            · ring
            · omega

/-- C3: a loop run that ends by timeout or cancellation with no
communication failure stores the mean of the converted amperes and the
mean of the raw counts over the successful cycles when there was at least
one, and NaN and -1 otherwise; the stop flag is cleared and the state
becomes ON; -1 sentinel results are skipped without accumulation (they
never enter goodVals). -/
theorem C3_measure_mean (r : RangeEnum.Range) (evs : List MeasEvent)
    (ch : ChannelState)
    (hnf : MeasEvent.fail ∉ evs.takeWhile notStop) :
    (0 < (goodVals evs).length →
        (measureRun r evs ch).current =
          PyFloat.fin (((goodVals evs).map (RangeEnum.to_amperes r)).sum /
            ((goodVals evs).length : ℚ)) ∧
        (measureRun r evs ch).raw_current =
          ((goodVals evs).map (Int.cast : ℤ → ℚ)).sum / ((goodVals evs).length : ℚ)) ∧
    ((goodVals evs).length = 0 →
        (measureRun r evs ch).current = PyFloat.nan ∧
        (measureRun r evs ch).raw_current = -1) ∧
    (measureRun r evs ch).stop = false ∧
    (measureRun r evs ch).state = DevState.ON := by
  have hm : measureRun r evs ch =
      finalize (((goodVals evs).map (RangeEnum.to_amperes r)).sum)
        (((goodVals evs).map (Int.cast : ℤ → ℚ)).sum)
        ((goodVals evs).length) { ch with state := DevState.RUNNING } := by
    rw [measureRun, runLoop_noFail r evs 0 0 0 _ hnf]
    congr 1 <;> simp
  refine ⟨?_, ?_, ?_, ?_⟩
  · intro hn
    rw [hm]
    unfold finalize
    rw [if_pos hn]
    exact ⟨rfl, rfl⟩
  · intro hn
    rw [hm]
    unfold finalize
    rw [if_neg (by omega)]
    exact ⟨rfl, rfl⟩
  · rw [hm]
    unfold finalize
    split <;> rfl
  · rw [hm]
    unfold finalize
    split <;> rfl

/-- C3 witness: a concrete run with successful cycles 5 and 7 and one
skipped sentinel ends with the stop flag cleared and the state ON. -/
theorem C3_measure_mean_witness :
    (measureRun 0 [MeasEvent.res 5, MeasEvent.res (-1), MeasEvent.res 7] chInit).stop
        = false ∧
    (measureRun 0 [MeasEvent.res 5, MeasEvent.res (-1), MeasEvent.res 7] chInit).state
        = DevState.ON := by
  have h := C3_measure_mean 0
    [MeasEvent.res 5, MeasEvent.res (-1), MeasEvent.res 7] chInit (by decide)
  exact ⟨h.2.2.1, h.2.2.2⟩

/-- runLoop on a trace whose executed prefix raises a serial failure ends
with FAULT and the remaining iterations never run. -/
theorem runLoop_fail (r : RangeEnum.Range) (pre : List MeasEvent) :
    ∀ (post : List MeasEvent) (result result_raw : ℚ) (cycles : ℕ)
      (ch : ChannelState),
      MeasEvent.fail ∉ pre → MeasEvent.stop ∉ pre →
      runLoop r (pre ++ MeasEvent.fail :: post) result result_raw cycles ch =
        { ch with state := DevState.FAULT } := by
  induction pre with
  | nil =>
      intro post result result_raw cycles ch _ _
      simp [runLoop]
  | cons e rest ih =>
      intro post result result_raw cycles ch h1 h2
      cases e with
      | stop => exact absurd (List.mem_cons_self _ _) h2
      | fail => exact absurd (List.mem_cons_self _ _) h1
      | res v =>
          have h1' : MeasEvent.fail ∉ rest := fun hm => h1 (List.mem_cons_of_mem _ hm)
          have h2' : MeasEvent.stop ∉ rest := fun hm => h2 (List.mem_cons_of_mem _ hm)
          rw [List.cons_append]
          by_cases hv : v = -1
          · have hr : runLoop r (MeasEvent.res v :: (rest ++ MeasEvent.fail :: post))
                result result_raw cycles ch =
                runLoop r (rest ++ MeasEvent.fail :: post) result result_raw cycles ch := by
              simp [runLoop, hv]
            rw [hr]
            exact ih post result result_raw cycles ch h1' h2'
          · have hr : runLoop r (MeasEvent.res v :: (rest ++ MeasEvent.fail :: post))
                result result_raw cycles ch =
                runLoop r (rest ++ MeasEvent.fail :: post)
                  (result + RangeEnum.to_amperes r v) (result_raw + (v : ℚ))
                  (cycles + 1) ch := by
              simp [runLoop, hv]
            rw [hr]
            exact ih post _ _ _ ch h1' h2'

/-- C7: a communication failure raised during a bus call of the loop sets
the channel state to FAULT and propagates immediately: the iterations
after it never run (the run equals the one truncated at the failure), the
accumulated averages are never stored, the stop flag is untouched, and
nothing is retried. -/
theorem C7_comm_failure_fault (r : RangeEnum.Range) (pre post : List MeasEvent)
    (ch : ChannelState)
    (h1 : MeasEvent.fail ∉ pre) (h2 : MeasEvent.stop ∉ pre) :
    (measureRun r (pre ++ MeasEvent.fail :: post) ch).state = DevState.FAULT ∧
    (measureRun r (pre ++ MeasEvent.fail :: post) ch).current = ch.current ∧
    (measureRun r (pre ++ MeasEvent.fail :: post) ch).raw_current = ch.raw_current ∧
    (measureRun r (pre ++ MeasEvent.fail :: post) ch).stop = ch.stop ∧
    measureRun r (pre ++ MeasEvent.fail :: post) ch =
      measureRun r (pre ++ [MeasEvent.fail]) ch := by
  have ha := runLoop_fail r pre post 0 0 0 { ch with state := DevState.RUNNING } h1 h2
  have hb := runLoop_fail r pre [] 0 0 0 { ch with state := DevState.RUNNING } h1 h2
  rw [measureRun, measureRun, ha, hb]
  exact ⟨rfl, rfl, rfl, rfl, rfl⟩

/-- C7 witness: a concrete run with one successful cycle followed by a
serial failure ends in FAULT and ignores the event after the failure. -/
theorem C7_comm_failure_fault_witness :
    (measureRun 0 ([MeasEvent.res 3] ++ MeasEvent.fail :: [MeasEvent.res 9]) chInit).state
      = DevState.FAULT :=
  (C7_comm_failure_fault 0 [MeasEvent.res 3] [MeasEvent.res 9] chInit
    (by decide) (by decide)).1

/-- C9: evaluating the loop at two successful cycles with raw counts 1 and
2 stores raw_current = 3/2, which is not an integer — the claim that
raw_current is always an integer or -1 fails on the code, which divides
with Python true division. -/
theorem C9_code_bug_eval :
    (measureRun 0 [MeasEvent.res 1, MeasEvent.res 2] chInit).raw_current = 3 / 2 ∧
    ¬ ∃ n : ℤ, (measureRun 0 [MeasEvent.res 1, MeasEvent.res 2] chInit).raw_current
        = (n : ℚ) := by
  have h : (measureRun 0 [MeasEvent.res 1, MeasEvent.res 2] chInit).raw_current
      = 3 / 2 := by
    norm_num [measureRun, runLoop, finalize, chInit]
  refine ⟨h, ?_⟩
  rw [h]
  rintro ⟨n, hn⟩
  have h3 : (3 : ℚ) = 2 * (n : ℚ) := by
    field_simp at hn
    linarith
  have h4 : (3 : ℤ) = 2 * n := by exact_mod_cast h3
  omega

/-- C4: on every exit path of query (valid response, sentinel return,
parse error, write failure, read failure) the lock is acquired first,
every wire write and read happens strictly between the acquire and the
single final release, and in every lock-respecting interleaving of two
concurrent query executions the wire events of the two threads never
interleave: each write-then-read exchange is atomic on the bus. -/
theorem C4_lock_exclusion :
    (∀ o : QueryOutcome, (queryTrace o).head? = some BusEvent.acquire) ∧
    (∀ o : QueryOutcome, (queryTrace o).getLast? = some BusEvent.release) ∧
    (∀ o : QueryOutcome, (queryTrace o).count BusEvent.acquire = 1 ∧
        (queryTrace o).count BusEvent.release = 1) ∧
    (∀ o1 o2 : QueryOutcome,
        ((merges (queryTrace o1) (queryTrace o2)).all fun s =>
            !lockOk none s || busContiguous s) = true) := by
  refine ⟨?_, ?_, ?_, ?_⟩
  · intro o
    cases o <;> rfl
  · intro o
    cases o <;> rfl
  · intro o
    cases o <;> exact ⟨by decide, by decide⟩
  · intro o1 o2
    cases o1 <;> cases o2 <;> decide

/-- C5 counterexample: write_range with the out-of-range address 99 sends
the command on the wire instead of validating the address and returning
the sentinel, and so does reset. -/
theorem C5_counterexample :
    FMBICPlusHost.write_range [99, 3] =
      some (BusAction.send (Command.confRangW 99 3) false 0) ∧
    FMBICPlusHost.write_range [99, 3] ≠ some (BusAction.sentinel (-1)) ∧
    FMBICPlusHost.reset 99 = BusAction.send (Command.rst 99) false 0 := by
  decide

/-- C5 (amended): only the read-style operations read_voltage, read_range,
read_offset and measure validate the address and return the -1 sentinel
without sending; write_voltage and write_offset validate (address and
value range) but silently send nothing and produce no sentinel; write_range
and reset perform no address validation at all and send their command for
any address. -/
theorem C5_amended_validation :
    (∀ ch : ℤ, ¬(0 ≤ ch ∧ ch ≤ 15) →
        FMBICPlusHost.read_voltage ch = BusAction.sentinel (-1) ∧
        FMBICPlusHost.read_range ch = BusAction.sentinel (-1) ∧
        FMBICPlusHost.read_offset ch = BusAction.sentinel (-1)) ∧
    (∀ a b : ℤ, ¬(0 ≤ a ∧ a ≤ 15) →
        FMBICPlusHost.measure [a, b] = BusAction.sentinel (-1) ∧
        FMBICPlusHost.write_voltage [a, b] = BusAction.nothing ∧
        FMBICPlusHost.write_offset [a, b] = BusAction.nothing) ∧
    (∀ a b : ℤ, FMBICPlusHost.write_range [a, b] =
        some (BusAction.send (Command.confRangW a b) false 0)) ∧
    (∀ ch : ℤ, FMBICPlusHost.reset ch = BusAction.send (Command.rst ch) false 0) := by
  refine ⟨?_, ?_, fun a b => rfl, fun ch => rfl⟩
  · intro ch h
    refine ⟨?_, ?_, ?_⟩
    · unfold FMBICPlusHost.read_voltage
      exact if_neg fun hc => h hc
    · unfold FMBICPlusHost.read_range
      exact if_neg fun hc => h hc
    · unfold FMBICPlusHost.read_offset
      exact if_neg fun hc => h hc
  · intro a b h
    refine ⟨?_, ?_, ?_⟩
    · unfold FMBICPlusHost.measure
      exact if_neg fun hc => h ⟨hc.2.1, hc.2.2⟩
    · unfold FMBICPlusHost.write_voltage
      exact if_neg fun hc => h ⟨hc.2.1, hc.2.2.1⟩
    · unfold FMBICPlusHost.write_offset
      exact if_neg fun hc => h ⟨hc.2.1, hc.2.2.1⟩

/-- C5 witness: at the out-of-range address 16 the reads return the
sentinel, write_voltage silently drops, while write_range and reset still
send their command. -/
theorem C5_amended_validation_witness :
    FMBICPlusHost.read_voltage 16 = BusAction.sentinel (-1) ∧
    FMBICPlusHost.write_voltage [16, 100] = BusAction.nothing ∧
    FMBICPlusHost.write_range [16, 3] =
      some (BusAction.send (Command.confRangW 16 3) false 0) ∧
    FMBICPlusHost.reset 16 = BusAction.send (Command.rst 16) false 0 :=
  ⟨(C5_amended_validation.1 16 (by decide)).1,
   (C5_amended_validation.2.1 16 100 (by decide)).2.1,
   C5_amended_validation.2.2.1 16 3,
   C5_amended_validation.2.2.2 16⟩

/-- C6: writing high_voltage = 2000 while ON stores the clamped 1700 in
the channel field but hands the raw 2000 to write_voltage, which silently
drops it: no command reaches the wire, contradicting the claim that the
transmitted value equals fitVoltageRange of the request; an in-range
request (1000) is transmitted unchanged. -/
theorem C6_code_bug_eval :
    (high_voltage_write 0 2000).high_voltage_field = 1700 ∧
    (high_voltage_write 0 2000).bus = BusAction.nothing ∧
    FMBICPlusChannel.fit_voltage_range 2000 = 1700 ∧
    (high_voltage_write 0 1000).bus =
      BusAction.send (Command.confVoltW 0 1000) false 0 := by
  decide

/-- C10: write_offset sends a command exactly when given two values with
the address in [0, 15] and the offset in [0, 99) — the documented maximum
offset 99 is silently dropped (no command, no sentinel), as is any
out-of-range address or a data list whose length differs from two. -/
theorem C10_write_offset_guard :
    (∀ a b : ℤ, FMBICPlusHost.write_offset [a, b] =
        (if 0 ≤ a ∧ a ≤ 15 ∧ 0 ≤ b ∧ b < 99 then
          BusAction.send (Command.confOffsW a b) false 0
        else BusAction.nothing)) ∧
    FMBICPlusHost.write_offset [3, 99] = BusAction.nothing ∧
    FMBICPlusHost.write_offset [16, 5] = BusAction.nothing ∧
    FMBICPlusHost.write_offset [3, 98] =
      BusAction.send (Command.confOffsW 3 98) false 0 ∧
    FMBICPlusHost.write_offset [] = BusAction.nothing ∧
    (∀ a : ℤ, FMBICPlusHost.write_offset [a] = BusAction.nothing) ∧
    (∀ a b c : ℤ, ∀ rest : List ℤ,
        FMBICPlusHost.write_offset (a :: b :: c :: rest) = BusAction.nothing) := by
  refine ⟨?_, by decide, by decide, by decide, by decide, ?_, ?_⟩
  · intro a b
    by_cases hc : 0 ≤ a ∧ a ≤ 15 ∧ 0 ≤ b ∧ b < 99
    · rw [if_pos hc]
      unfold FMBICPlusHost.write_offset
      rw [if_pos ⟨rfl, hc.1, hc.2.1, hc.2.2.1, hc.2.2.2⟩]
      rfl
    · rw [if_neg hc]
      unfold FMBICPlusHost.write_offset
      refine if_neg fun hd => hc ⟨hd.2.1, hd.2.2.1, hd.2.2.2.1, hd.2.2.2.2⟩
  · intro a
    unfold FMBICPlusHost.write_offset
    exact if_neg fun hc => by simp at hc
  · intro a b c rest
    unfold FMBICPlusHost.write_offset
    refine if_neg fun hc => ?_
    have hlen := hc.1
    simp only [List.length_cons] at hlen
    omega

/-- C2 witness: a 2-byte response with data expected and a wrong single
byte without data expected yield the sentinel; the framed response
"A42\n" parses to 42; the 0x06 acknowledgement yields 0. -/
theorem C2_query_validation_witness :
    FMBICPlusHost.query [49, 50] true = some (-1) ∧
    FMBICPlusHost.query [7] false = some (-1) ∧
    FMBICPlusHost.query [65, 52, 50, 10] true = some 42 ∧
    FMBICPlusHost.query [6] false = some 0 := by
  refine ⟨(C2_query_validation [49, 50]).1 (by decide),
          (C2_query_validation [7]).2.1 (by decide), ?_,
          (C2_query_validation [6]).2.2.2.2 rfl⟩
  rw [(C2_query_validation [65, 52, 50, 10]).2.2.2.1 (by decide)]
  decide
